import Mathlib

/-!
Verification of the rating-replay and feature-engineering core of a sports
analytics system.  The Python source (`src/features/ratings.py` and
`src/features/feature_engineering.py`, with the ORM row types of
`src/data/database.py`) is shallowly embedded below: database tables become
lists of records, SQL queries become filters plus a stable insertion sort,
Python dictionaries become association lists with insert-order semantics,
floating-point ratings become real numbers, and the runtime errors caused
by the schema mismatch between `ratings.py` and the `TeamRating` ORM model
(AttributeError on `r.rating`, TypeError at snapshot construction) are
modelled with `Except`.
-/

namespace SAF

/-- Row of the `teams` table (`database.py`, class `Team`); only the columns
read by the rating code are carried. -/
structure Team where
  team_id : String
  name : String
  league : String
  abbreviation : Option String
deriving Repr, DecidableEq

/-- Row of the `games` table (`database.py`, class `Game`); dates are modelled
as integers (day ordinals), scores as optional integers. -/
structure Game where
  game_id : String
  season : Int
  week : Int
  date : Int
  home_team_id : String
  away_team_id : String
  league : String
  home_score : Option Int
  away_score : Option Int
  completed : Bool
  is_neutral_site : Bool
deriving Repr, DecidableEq

/-- Row of the `team_stats` table (`database.py`, class `TeamStats`); only the
columns read by `_get_rolling_point_diff` are carried. -/
structure TeamStats where
  team_id : String
  season : Int
  week : Int
  league : String
  point_differential : Option ℝ

/-- Row of the `team_ratings` table exactly as `database.py` declares it
(class `TeamRating`): `team_id`, `season`, `week` (non-nullable),
`league`, `elo_rating`, `srs_rating` (the surrogate `id` and `created_at`
are never read by the rating code).  The model has NO `rating`,
`games_count`, `team_abbr`, `team_name`, `as_of_date` or `updated_at`
attributes — `ratings.py` nevertheless reads `r.rating` and constructs
rows with those keyword arguments, which raises at runtime; see
`prevRatingsBuild` and `compute_elo_ratings` below. -/
structure TeamRating where
  team_id : String
  season : Int
  week : Int
  league : String
  elo_rating : Option ℝ
  srs_rating : Option ℝ

/-- The database session: one list per table, in table (insertion) order. -/
structure DB where
  teams : List Team
  games : List Game
  team_stats : List TeamStats
  team_ratings : List TeamRating

/-! ### Association lists with Python-dict semantics -/

/-- `d[k]` lookup returning `none` when the key is absent. -/
def alistFind {β : Type} : List (String × β) → String → Option β
  | [], _ => none
  | p :: rest, k => if p.1 = k then some p.2 else alistFind rest k

/-- `d[k] = v`: overwrite in place if the key exists, append otherwise
(Python dicts preserve first-insertion order). -/
def alistSet {β : Type} (l : List (String × β)) (k : String) (v : β) :
    List (String × β) :=
  match l with
  | [] => [(k, v)]
  | p :: rest => if p.1 = k then (k, v) :: rest else p :: alistSet rest k v

/-- The key list of an association list. -/
def alistKeys {β : Type} (l : List (String × β)) : List String :=
  l.map (fun p => p.1)

/-! ### Team Identity Normalizer (`ratings.py`, `normalize_team_id`) -/

/-- `normalize_team_id` from `ratings.py`: strip a single leading
`"<league>_"` from the identifier when present; empty input is returned
unchanged.  The prefix test and slice are on the character list, matching
Python's `startswith` and `[len:]`. -/
def normalize_team_id (team_id : String) (league : String) : String :=
  if team_id = "" then team_id
  else
    let pfx := league ++ "_"
    if pfx.data.isPrefixOf team_id.data then ⟨team_id.data.drop pfx.length⟩
    else team_id

/-! ### Ordering relations used by the SQL `ORDER BY` clauses.
SQL sorting is modelled as a stable insertion sort of the table list. -/

/-- `ORDER BY week, date` — the clause of `compute_elo_ratings`
(`ratings.py`): week is the primary key, date the secondary key. -/
def weekDateLe (g1 g2 : Game) : Prop :=
  g1.week < g2.week ∨ (g1.week = g2.week ∧ g1.date ≤ g2.date)

/-- `ORDER BY date, week` — the clause of `compute_game_features_by_id`
(`feature_engineering.py`): date primary, week secondary. -/
def dateWeekLe (g1 g2 : Game) : Prop :=
  g1.date < g2.date ∨ (g1.date = g2.date ∧ g1.week ≤ g2.week)

instance : DecidableRel weekDateLe := fun g1 g2 => by
  unfold weekDateLe; infer_instance

instance : DecidableRel dateWeekLe := fun g1 g2 => by
  unfold dateWeekLe; infer_instance

instance : IsTrans Game weekDateLe :=
  ⟨by intro a b c h1 h2; unfold weekDateLe at *; omega⟩

instance : IsTotal Game weekDateLe :=
  ⟨by intro a b; unfold weekDateLe; omega⟩

instance : IsTrans Game dateWeekLe :=
  ⟨by intro a b c h1 h2; unfold dateWeekLe at *; omega⟩

instance : IsTotal Game dateWeekLe :=
  ⟨by intro a b; unfold dateWeekLe; omega⟩

/-- Non-decreasing in `(date, week)` with date as the primary key: the
processing order asserted by the specification. -/
def dateWeekOrdered (l : List Game) : Prop :=
  List.Pairwise dateWeekLe l

/-! ### Rating Replay Engine (`ratings.py`, `compute_elo_ratings`) -/

/-- The `WHERE` clause of `compute_elo_ratings`: completed games of the
league and season with both scores present. -/
def eloGamePred (league : String) (season : Int) (g : Game) : Bool :=
  decide (g.league = league ∧ g.season = season ∧ g.completed = true ∧
    g.home_score.isSome ∧ g.away_score.isSome)

/-- The game list `compute_elo_ratings` iterates over: completed games of
the league/season ordered by `(week, date)`. -/
def eloOrderedGames (db : DB) (league : String) (season : Int) : List Game :=
  List.insertionSort weekDateLe (db.games.filter (eloGamePred league season))

/-- Expected home score with the fixed home-advantage offset
`home_advantage_elo = 55.0`:
`1.0 / (1.0 + 10.0 ** ((R_away - (R_home + 55.0)) / 400.0))`. -/
noncomputable def eloExpectedHome (rHome rAway : ℝ) : ℝ :=
  1.0 / (1.0 + (10.0 : ℝ) ^ ((rAway - (rHome + 55.0)) / 400.0))

/-- Actual home outcome: 1.0 win, 0.0 loss, 0.5 tie. -/
def eloActualHome (hs sa : Int) : ℝ :=
  if hs > sa then 1.0 else if hs < sa then 0.0 else 0.5

/-- Actual away outcome: 0.0 loss, 1.0 win, 0.5 tie. -/
def eloActualAway (hs sa : Int) : ℝ :=
  if hs > sa then 0.0 else if hs < sa then 1.0 else 0.5

/-- `home_change = k_factor * (home_actual - home_expected)`. -/
noncomputable def eloHomeChange (k rHome rAway : ℝ) (hs sa : Int) : ℝ :=
  k * (eloActualHome hs sa - eloExpectedHome rHome rAway)

/-- `away_change = k_factor * (away_actual - away_expected)` with
`away_expected = 1.0 - home_expected`. -/
noncomputable def eloAwayChange (k rHome rAway : ℝ) (hs sa : Int) : ℝ :=
  k * (eloActualAway hs sa - (1.0 - eloExpectedHome rHome rAway))

/-- The two mutable dictionaries of the replay: `ratings` and
`team_games_count`. -/
structure EloState where
  ratings : List (String × ℝ)
  counts : List (String × Nat)

/-- Python `team.abbreviation or normalized_id` (falsy fallback). -/
def abbrOrDefault (a : Option String) (dflt : String) : String :=
  match a with
  | none => dflt
  | some s => if s = "" then dflt else s

/-- The `team_info` dictionary: normalized id to `(abbreviation, name)` for
every team row of the league whose id normalizes to a non-empty string. -/
def teamInfoList (db : DB) (league : String) :
    List (String × String × String) :=
  (db.teams.filter (fun t => decide (t.league = league))).foldl
    (fun acc t =>
      let nid := normalize_team_id t.team_id league
      if nid = "" then acc
      else alistSet acc nid (abbrOrDefault t.abbreviation nid, t.name)) []

/-- The Python error raised by `ratings.py:137`: the dict comprehension
reads `r.rating`, an attribute `database.py`'s `TeamRating` model does not
have. -/
def attrErrRating : String :=
  "AttributeError: TeamRating object has no attribute rating"

/-- The Python error raised by `ratings.py:228`: the snapshot construction
passes `team_abbr`/`team_name`/`rating`/`as_of_date`/`games_count`/
`updated_at` keyword arguments, which the declarative `TeamRating`
constructor rejects. -/
def typeErrSnapshot : String :=
  "TypeError: invalid keyword argument for TeamRating"

/-- The previous-season rating rows of the league. -/
def prevRows (db : DB) (league : String) (season : Int) : List TeamRating :=
  db.team_ratings.filter
    (fun r => decide (r.league = league ∧ r.season = season - 1))

/-- The `prev_ratings` dict comprehension of `ratings.py:136-140`:
`{normalize_team_id(r.team_id, league): r.rating for r in rows
if normalize_team_id(r.team_id, league)}`.  A row whose id normalizes to
the empty string is skipped by the `if` clause before any attribute
access; for every other row the value expression `r.rating` is evaluated
and raises `AttributeError`, because the ORM model has no `rating`
attribute.  The comprehension therefore yields the empty dict when every
row is skipped, and raises otherwise. -/
def prevRatingsBuild (league : String) :
    List TeamRating → List (String × ℝ) → Except String (List (String × ℝ))
  | [], acc => .ok acc
  | r :: rest, acc =>
    if normalize_team_id r.team_id league = "" then
      prevRatingsBuild league rest acc
    else .error attrErrRating

/-- The `prev_ratings` dictionary of `compute_elo_ratings`, with the
attribute error of `ratings.py:137` modelled explicitly. -/
def prevRatingsList (db : DB) (league : String) (season : Int) :
    Except String (List (String × ℝ)) :=
  prevRatingsBuild league (prevRows db league season) []

/-- Season-start rating of one team, as written at `ratings.py:142-149`:
mean reversion `prev * (1 - factor) + base * factor` when a
previous-season snapshot exists in the dict, `base` otherwise.  (Since the
`prev_ratings` dict can only ever be empty — see `prevRatingsBuild` — the
reversion branch is unreachable in the program.) -/
noncomputable def eloStartRating (prev : List (String × ℝ)) (base f : ℝ)
    (key : String) : ℝ :=
  match alistFind prev key with
  | some pr => pr * (1 - f) + base * f
  | none => base

/-- Season-boundary initialization of `compute_elo_ratings`: when
`season > 2000` the `prev_ratings` dict is built first — raising
`AttributeError` as soon as a previous-season row with a normalizable id
exists — and each known team starts at `eloStartRating`; otherwise every
known team starts at `base_rating`.  Games-played counters start at 0. -/
noncomputable def eloInitState (db : DB) (league : String) (season : Int)
    (base f : ℝ) : Except String EloState :=
  let info := teamInfoList db league
  if 2000 < season then
    match prevRatingsList db league season with
    | .error e => .error e
    | .ok prev =>
      .ok { ratings := info.foldl (fun acc p =>
              alistSet acc p.1 (eloStartRating prev base f p.1)) [],
            counts := info.foldl (fun acc p => alistSet acc p.1 0) [] }
  else
    .ok { ratings := info.foldl (fun acc p => alistSet acc p.1 base) [],
          counts := info.foldl (fun acc p => alistSet acc p.1 0) [] }

/-- `if team not in ratings: ratings[team] = base; counts[team] = 0` — the
first-appearance initialization inside the replay loop. -/
def eloInitTeam (base : ℝ) (s : EloState) (t : String) : EloState :=
  if (alistFind s.ratings t).isSome then s
  else ⟨alistSet s.ratings t base, alistSet s.counts t 0⟩

/-- `ratings[t]`, defaulting to `base` (the default is never hit after
first-appearance initialization). -/
def ratingOf (base : ℝ) (s : EloState) (t : String) : ℝ :=
  (alistFind s.ratings t).getD base

/-- `team_games_count[t]`, defaulting to 0. -/
def countOf (s : EloState) (t : String) : Nat :=
  (alistFind s.counts t).getD 0

/-- The loop body of `compute_elo_ratings`: skip the game when either team
id normalizes to the empty string; otherwise insert unseen teams at
`base_rating`, apply the Elo update to both ratings and bump both
games-played counters. -/
noncomputable def eloStep (k base : ℝ) (league : String) (s : EloState)
    (g : Game) : EloState :=
  let home := normalize_team_id g.home_team_id league
  let away := normalize_team_id g.away_team_id league
  if home = "" ∨ away = "" then s
  else
    let s2 := eloInitTeam base (eloInitTeam base s home) away
    let rHome := (alistFind s2.ratings home).getD base
    let rAway := (alistFind s2.ratings away).getD base
    let hs := g.home_score.getD 0
    let sa := g.away_score.getD 0
    let r1 := alistSet s2.ratings home (rHome + eloHomeChange k rHome rAway hs sa)
    let r2 := alistSet r1 away
      ((alistFind r1 away).getD base + eloAwayChange k rHome rAway hs sa)
    let c1 := alistSet s2.counts home ((alistFind s2.counts home).getD 0 + 1)
    let c2 := alistSet c1 away ((alistFind c1 away).getD 0 + 1)
    ⟨r2, c2⟩

/-- `compute_elo_ratings` (`ratings.py:62-244`), with the runtime errors
of its schema mismatch modelled explicitly.  Control flow in program
order: return `[]` when no completed game exists (`ratings.py:106-108`);
build `team_info`; for `season > 2000` build `prev_ratings`, which raises
`AttributeError` whenever a previous-season row with a normalizable id
exists (`ratings.py:137` reads the nonexistent `r.rating`); replay the
ordered games; then iterate the final ratings dictionary constructing
`TeamRating(..., team_abbr=..., rating=..., games_count=..., ...)` —
keyword arguments the declarative model rejects, so the first iteration
raises `TypeError` (`ratings.py:228-239`).  The loop body never runs only
when the final dictionary is empty, in which case the accumulated `result`
list — the empty list — is returned. -/
noncomputable def compute_elo_ratings (db : DB) (league : String)
    (season : Int) (k base f : ℝ) : Except String (List TeamRating) :=
  if eloOrderedGames db league season = [] then .ok []
  else
    match eloInitState db league season base f with
    | .error e => .error e
    | .ok init =>
      let final := (eloOrderedGames db league season).foldl
        (eloStep k base league) init
      if final.ratings.isEmpty then .ok []
      else .error typeErrSnapshot

/-! ### Rating lookup (`ratings.py`, `get_team_rating`) -/

/-- Column selection: `'elo_rating' if rating_type == 'elo' else 'srs_rating'`. -/
def ratingColumn (r : TeamRating) (rating_type : String) : Option ℝ :=
  if rating_type = "elo" then r.elo_rating else r.srs_rating

/-- Sort key for `ORDER BY week DESC` on rating rows. -/
def ratingWeek (r : TeamRating) : Int := r.week

/-- `ORDER BY week DESC` on rating rows. -/
def ratingWeekGe (a b : TeamRating) : Prop := ratingWeek b ≤ ratingWeek a

instance : DecidableRel ratingWeekGe := fun a b => by
  unfold ratingWeekGe; infer_instance

instance : IsTrans TeamRating ratingWeekGe :=
  ⟨by intro a b c h1 h2; unfold ratingWeekGe at *; omega⟩

instance : IsTotal TeamRating ratingWeekGe :=
  ⟨by intro a b; unfold ratingWeekGe; omega⟩

/-- `get_team_rating` (`ratings.py`): exact-week row first (table order),
else the most recent row with a strictly smaller week, else `None`.  The
returned value is the selected rating column, which may itself be `None`. -/
def get_team_rating (db : DB) (team_id : String) (season : Int) (week : Int)
    (league : String) (rating_type : String) : Option ℝ :=
  match (db.team_ratings.filter (fun r =>
      decide (r.team_id = team_id ∧ r.season = season ∧ r.week = week ∧
        r.league = league))).head? with
  | some r => ratingColumn r rating_type
  | none =>
    match (List.insertionSort ratingWeekGe (db.team_ratings.filter (fun r =>
        decide (r.team_id = team_id ∧ r.season = season ∧ r.week < week ∧
          r.league = league)))).head? with
    | some r => ratingColumn r rating_type
    | none => none

/-! ### Rolling Form Statistic
(`feature_engineering.py`, `FeatureEngineer._get_rolling_point_diff`) -/

/-- The `WHERE` clause of the rolling-form query. -/
def statPred (league team : String) (season week : Int) (s : TeamStats) :
    Bool :=
  decide (s.team_id = team ∧ s.season = season ∧ s.week ≤ week ∧
    s.league = league)

/-- `ORDER BY week DESC` on stat rows. -/
def statWeekGe (a b : TeamStats) : Prop := b.week ≤ a.week

instance : DecidableRel statWeekGe := fun a b => by
  unfold statWeekGe; infer_instance

instance : IsTrans TeamStats statWeekGe :=
  ⟨by intro a b c h1 h2; unfold statWeekGe at *; omega⟩

instance : IsTotal TeamStats statWeekGe :=
  ⟨by intro a b; unfold statWeekGe; omega⟩

/-- Qualifying stat rows ordered by `week DESC` (stable). -/
def rollingSortedStats (db : DB) (league team : String) (season week : Int) :
    List TeamStats :=
  List.insertionSort statWeekGe
    (db.team_stats.filter (statPred league team season week))

/-- `_get_rolling_point_diff`: mean of the non-null point differentials of
at most the `window` most recent qualifying rows; `None` when no row
qualifies or every qualifying row lacks a differential. -/
noncomputable def get_rolling_point_diff (db : DB) (league team : String)
    (season week : Int) (window : Nat) : Option ℝ :=
  let stats := (rollingSortedStats db league team season week).take window
  if stats.isEmpty then none
  else
    let point_diffs := stats.filterMap (fun s => s.point_differential)
    if point_diffs.isEmpty then none
    else some (point_diffs.sum / (point_diffs.length : ℝ))

/-! ### Feature Composer, week-cutoff mode
(`feature_engineering.py`, `FeatureEngineer.compute_game_features`) -/

/-- The feature vector of the week-cutoff mode. -/
structure WeekFeatures where
  rating_diff : ℝ
  home_field_advantage : ℝ
  point_diff_diff : ℝ
  league_indicator : ℝ

/-- `compute_game_features`: ratings and rolling form as of the prediction
week (defaulting to `game.week - 1`, or 0 for week 1); every `None` is
coerced to 0 by the Python `or 0` idiom before the subtractions. -/
noncomputable def compute_game_features (db : DB) (league : String)
    (rating_type : String) (game : Game)
    (prediction_week : Option Int) : WeekFeatures :=
  let pw := match prediction_week with
    | some w => w
    | none => if game.week > 1 then game.week - 1 else 0
  let home_rating := get_team_rating db game.home_team_id game.season pw
    league rating_type
  let away_rating := get_team_rating db game.away_team_id game.season pw
    league rating_type
  let rating_diff := home_rating.getD 0 - away_rating.getD 0
  let home_field := if game.is_neutral_site then 0.0 else 1.0
  let home_pd := get_rolling_point_diff db league game.home_team_id game.season pw 8
  let away_pd := get_rolling_point_diff db league game.away_team_id game.season pw 8
  let point_diff_diff := home_pd.getD 0 - away_pd.getD 0
  let league_indicator := if league = "NFL" then 1.0 else 0.0
  ⟨rating_diff, home_field, point_diff_diff, league_indicator⟩

/-! ### Feature Composer, date-cutoff mode
(`feature_engineering.py`, `compute_game_features_by_id`) -/

/-- The feature vector of the date-cutoff mode. -/
structure ByIdFeatures where
  rating_diff : ℝ
  home_field : ℝ
  season : ℝ
  week : ℝ

/-- `session.scalar(select(Game).where(Game.game_id == game_id))`: the first
game row with the requested id. -/
def find_game (db : DB) (game_id : String) : Option Game :=
  db.games.find? (fun g => decide (g.game_id = game_id))

/-- The `WHERE` clause of the prior-game query: same league and season,
date strictly before the cutoff, completed, both scores present. -/
def priorGamePred (league : String) (season : Int) (cutoff : Int) (g : Game) :
    Bool :=
  decide (g.league = league ∧ g.season = season ∧ g.date < cutoff ∧
    g.completed = true ∧ g.home_score.isSome ∧ g.away_score.isSome)

/-- Prior games of the target game, ordered by `(date, week)`. -/
def priorGames (db : DB) (G : Game) : List Game :=
  List.insertionSort dateWeekLe
    (db.games.filter (priorGamePred G.league G.season G.date))

/-- Agreement predicate for the leakage statement: the completed games
dated strictly before the cutoff. -/
def completedBefore (cutoff : Int) (g : Game) : Bool :=
  decide (g.completed = true ∧ g.date < cutoff)

/-- The loop body of the on-the-fly replay in `compute_game_features_by_id`:
raw (un-normalized) team ids, unseen teams inserted at 1500.0, k = 20,
home advantage 55, no games counter. -/
noncomputable def byIdStep (ratings : List (String × ℝ)) (g : Game) :
    List (String × ℝ) :=
  let home := g.home_team_id
  let away := g.away_team_id
  let r0 := if (alistFind ratings home).isSome then ratings
    else alistSet ratings home 1500.0
  let r1 := if (alistFind r0 away).isSome then r0
    else alistSet r0 away 1500.0
  let rHome := (alistFind r1 home).getD 1500.0
  let rAway := (alistFind r1 away).getD 1500.0
  let hs := g.home_score.getD 0
  let sa := g.away_score.getD 0
  let r2 := alistSet r1 home (rHome + eloHomeChange 20.0 rHome rAway hs sa)
  alistSet r2 away
    ((alistFind r2 away).getD 1500.0 + eloAwayChange 20.0 rHome rAway hs sa)

/-- `compute_game_features_by_id`: `ValueError` (modelled as `Except.error`)
when the game id matches no row; otherwise replay Elo over the prior games
and read the two teams' ratings, falling back to 1500.0 for unseen teams. -/
noncomputable def compute_game_features_by_id (db : DB) (game_id : String) :
    Except String ByIdFeatures :=
  match find_game db game_id with
  | none => .error ("Game not found: " ++ game_id)
  | some game =>
    let ratings := (priorGames db game).foldl byIdStep []
    let home_rating := (alistFind ratings game.home_team_id).getD 1500.0
    let away_rating := (alistFind ratings game.away_team_id).getD 1500.0
    .ok { rating_diff := home_rating - away_rating
          home_field := 1.0
          season := (game.season : ℝ)
          week := (game.week : ℝ) }

/-! ### Concrete fixtures used to instantiate the theorems below -/

/-- A completed game: KC 24, BUF 17. -/
def gC2 : Game :=
  ⟨"C2G", 2024, 5, 100, "KC", "BUF", "NFL", some 24, some 17, true, false⟩

/-- The replay state after first-appearance initialization of `gC2`. -/
def s2C2 : EloState :=
  eloInitTeam 1500 (eloInitTeam 1500 ⟨[], []⟩ "KC") "BUF"

/-- Week 2 but the earlier date. -/
def gC4a : Game :=
  ⟨"C4A", 2024, 2, 5, "A", "B", "NFL", some 10, some 7, true, false⟩

/-- Week 1 but the later date. -/
def gC4b : Game :=
  ⟨"C4B", 2024, 1, 6, "C", "D", "NFL", some 3, some 0, true, false⟩

/-- Two completed games whose week order disagrees with their date order. -/
def dbC4 : DB := ⟨[], [gC4a, gC4b], [], []⟩

/-- A team-table row whose stored id carries the league marker. -/
def teamKC : Team := ⟨"NFL_KC", "Kansas City", "NFL", some "KC"⟩

/-- A previous-season (2022) rating row for KC. -/
def prevRowC7 : TeamRating := ⟨"NFL_KC", 2022, 17, "NFL", some 1800, none⟩

/-- A completed 2023 game, so the 2023 replay reaches initialization. -/
def gC7 : Game :=
  ⟨"C7G", 2023, 1, 10, "KC", "DEN", "NFL", some 20, some 10, true, false⟩

/-- Database for a 2023 replay with a 2022 rating row present. -/
def dbC7 : DB := ⟨[teamKC], [gC7], [], [prevRowC7]⟩

/-- A season-1999 rating row for KC. -/
def prevRowC7x : TeamRating := ⟨"NFL_KC", 1999, 17, "NFL", some 1800, none⟩

/-- A completed season-2000 game. -/
def gC7x : Game :=
  ⟨"C7X", 2000, 1, 10, "KC", "DEN", "NFL", some 20, some 10, true, false⟩

/-- Database for a season-2000 replay with a 1999 rating row present. -/
def dbC7x : DB := ⟨[teamKC], [gC7x], [], [prevRowC7x]⟩

/-- The initial state the season-2000 replay of `dbC7x` computes: KC at the
base rating, zero games. -/
def initC7x : EloState := ⟨[("KC", 1500)], [("KC", 0)]⟩

/-- Rating row for team A at week 2 with Elo 100. -/
def ratingRowC3 : TeamRating := ⟨"A", 2024, 2, "NFL", some 100, none⟩

/-- Ratings table holding only team A's snapshot. -/
def dbC3 : DB := ⟨[], [], [], [ratingRowC3]⟩

/-- Game between unrated team H and rated team A. -/
def gC3 : Game :=
  ⟨"C3G", 2024, 4, 50, "H", "A", "NFL", none, none, false, false⟩

/-- Game between two teams with no ratings at all. -/
def gC3w : Game :=
  ⟨"C3W", 2024, 4, 50, "H", "Z", "NFL", none, none, false, false⟩

/-- An upcoming game with no completed game before it. -/
def gC9 : Game :=
  ⟨"C9G", 2024, 3, 10, "A", "B", "NFL", none, none, false, false⟩

/-- Database holding only the upcoming game. -/
def dbC9 : DB := ⟨[], [gC9], [], []⟩

/-- A completed game strictly before the target date. -/
def gPriorC1 : Game :=
  ⟨"P1", 2024, 1, 10, "A", "B", "NFL", some 20, some 10, true, false⟩

/-- The target game, dated 30. -/
def gTargetC1 : Game :=
  ⟨"T1", 2024, 3, 30, "A", "B", "NFL", none, none, false, false⟩

/-- A completed game dated at 40, i.e. after the target game. -/
def gFutureC1 : Game :=
  ⟨"F1", 2024, 4, 40, "A", "B", "NFL", some 7, some 3, true, false⟩

/-- Game table without the future game. -/
def dbC1a : DB := ⟨[], [gPriorC1, gTargetC1], [], []⟩

/-- Game table with the future game added. -/
def dbC1b : DB := ⟨[], [gPriorC1, gTargetC1, gFutureC1], [], []⟩

/-- A league team that never plays a game. -/
def teamX : Team := ⟨"NFL_X", "Exeter", "NFL", some "X"⟩

/-- The only completed game of the season: A 21, B 14. -/
def gC5 : Game :=
  ⟨"C5G", 2024, 1, 10, "A", "B", "NFL", some 21, some 14, true, false⟩

/-- Team table lists X; the game log only ever mentions A and B. -/
def dbC5 : DB := ⟨[teamX], [gC5], [], []⟩

/-- The initial state the 2024 replay of `dbC5` computes: X at the base
rating (no previous-season rows exist), zero games. -/
def initC5 : EloState := ⟨[("X", 1500)], [("X", 0)]⟩

theorem alistKeys_nil {β : Type} : alistKeys ([] : List (String × β)) = [] :=
  rfl

theorem alistKeys_cons {β : Type} (p : String × β) (rest : List (String × β)) :
    alistKeys (p :: rest) = p.1 :: alistKeys rest := rfl

theorem alistFind_set_self {β : Type} (l : List (String × β)) (k : String)
    (v : β) : alistFind (alistSet l k v) k = some v := by
  induction l with
  | nil => simp [alistSet, alistFind]
  | cons p rest ih =>
    by_cases h : p.1 = k
    · simp [alistSet, h, alistFind]
    · simp [alistSet, h, alistFind, ih]

theorem alistFind_set_ne {β : Type} (l : List (String × β)) (k k' : String)
    (v : β) (h : k' ≠ k) : alistFind (alistSet l k v) k' = alistFind l k' := by
  induction l with
  | nil => simp [alistSet, alistFind, Ne.symm h]
  | cons p rest ih =>
    by_cases hp : p.1 = k
    · simp [alistSet, hp, alistFind, Ne.symm h]
    · by_cases hq : p.1 = k'
      · simp [alistSet, hp, alistFind, hq, h]
      · simp [alistSet, hp, alistFind, hq, ih]

theorem alistKeys_set_of_mem {β : Type} (l : List (String × β)) (k : String)
    (v : β) (hm : k ∈ alistKeys l) :
    alistKeys (alistSet l k v) = alistKeys l := by
  induction l with
  | nil => cases hm
  | cons p rest ih =>
    by_cases h : p.1 = k
    · rw [alistKeys_cons]
      show alistKeys (if p.1 = k then (k, v) :: rest else p :: alistSet rest k v)
        = p.1 :: alistKeys rest
      rw [if_pos h, alistKeys_cons, h]
    · have hm' : k ∈ alistKeys rest := by
        rw [alistKeys_cons] at hm
        rcases List.mem_cons.mp hm with e | hr
        · exact absurd e.symm h
        · exact hr
      show alistKeys (if p.1 = k then (k, v) :: rest else p :: alistSet rest k v)
        = alistKeys (p :: rest)
      rw [if_neg h, alistKeys_cons, alistKeys_cons, ih hm']

theorem alistKeys_set_of_not_mem {β : Type} (l : List (String × β)) (k : String)
    (v : β) (hm : k ∉ alistKeys l) :
    alistKeys (alistSet l k v) = alistKeys l ++ [k] := by
  induction l with
  | nil => rfl
  | cons p rest ih =>
    rw [alistKeys_cons] at hm
    have h : p.1 ≠ k := fun e => hm (e ▸ List.mem_cons_self p.1 (alistKeys rest))
    have hm' : k ∉ alistKeys rest := fun hr => hm (List.mem_cons_of_mem _ hr)
    show alistKeys (if p.1 = k then (k, v) :: rest else p :: alistSet rest k v)
      = alistKeys (p :: rest) ++ [k]
    rw [if_neg h, alistKeys_cons, alistKeys_cons, ih hm', List.cons_append]

theorem mem_alistKeys_set {β : Type} (l : List (String × β)) (k k' : String)
    (v : β) : k' ∈ alistKeys (alistSet l k v) ↔ k' = k ∨ k' ∈ alistKeys l := by
  by_cases hm : k ∈ alistKeys l
  · rw [alistKeys_set_of_mem l k v hm]
    constructor
    · exact Or.inr
    · rintro (rfl | h)
      · exact hm
      · exact h
  · rw [alistKeys_set_of_not_mem l k v hm]
    simp [or_comm]

theorem alistKeys_set_nodup {β : Type} (l : List (String × β)) (k : String)
    (v : β) (h : (alistKeys l).Nodup) : (alistKeys (alistSet l k v)).Nodup := by
  by_cases hm : k ∈ alistKeys l
  · rwa [alistKeys_set_of_mem l k v hm]
  · rw [alistKeys_set_of_not_mem l k v hm]
    simp [List.nodup_append, h, hm]

theorem alistFind_isSome_iff_mem {β : Type} (l : List (String × β))
    (k : String) : (alistFind l k).isSome ↔ k ∈ alistKeys l := by
  induction l with
  | nil => simp [alistFind, alistKeys_nil]
  | cons p rest ih =>
    rw [alistKeys_cons]
    by_cases h : p.1 = k
    · simp [alistFind, h]
    · simpa [alistFind, h, Ne.symm h] using ih

theorem alistFind_eq_of_mem_nodup {β : Type} (l : List (String × β))
    (k : String) (v : β) (hn : (alistKeys l).Nodup) (hm : (k, v) ∈ l) :
    alistFind l k = some v := by
  induction l with
  | nil => cases hm
  | cons p rest ih =>
    rw [alistKeys_cons, List.nodup_cons] at hn
    rcases List.mem_cons.mp hm with hm | hm
    · rw [← hm]
      simp [alistFind]
    · have hp : p.1 ≠ k := by
        intro e
        exact hn.1 (e ▸ List.mem_map.mpr ⟨(k, v), hm, rfl⟩)
      simp [alistFind, hp, ih hn.2 hm]

theorem string_append_ne_empty_right (a b : String) (h : b ≠ "") :
    a ++ b ≠ "" := by
  intro e
  apply h
  have hd := congrArg String.data e
  rw [String.data_append] at hd
  have h2 : b.data = [] := (List.append_eq_nil.mp hd).2
  cases b
  simp_all

theorem string_append_ne_empty_left (a b : String) (h : a ≠ "") :
    a ++ b ≠ "" := by
  intro e
  apply h
  have hd := congrArg String.data e
  rw [String.data_append] at hd
  have h2 : a.data = [] := (List.append_eq_nil.mp hd).1
  cases a
  simp_all

/-- One application of the normalizer on `"<league>_" ++ t` removes exactly
that one occurrence of the league marker. -/
theorem normalize_team_id_append (league t : String) :
    normalize_team_id (league ++ "_" ++ t) league = t := by
  unfold normalize_team_id
  have hne : league ++ "_" ++ t ≠ "" :=
    string_append_ne_empty_left (league ++ "_") t
      (string_append_ne_empty_right league "_" (by decide))
  rw [if_neg hne]
  have hdata : (league ++ "_" ++ t).data = (league ++ "_").data ++ t.data :=
    String.data_append (league ++ "_") t
  have hpf : (league ++ "_").data.isPrefixOf (league ++ "_" ++ t).data = true := by
    rw [hdata]
    exact List.isPrefixOf_iff_prefix.mpr ⟨t.data, rfl⟩
  simp only [hpf, if_pos]
  have hlen : (league ++ "_").length = (league ++ "_").data.length := rfl
  rw [hlen, hdata, List.drop_left]

end SAF

/-- C10: `normalize_team_id` strips at most one leading league marker per
call, hence is not idempotent: on the doubly-prefixed identifier
`"NFL_NFL_KC"` with league `"NFL"`, one application yields `"NFL_KC"`, a
second yields `"KC"`, so applying it twice differs from applying it once. -/
theorem normalize_team_id_not_idempotent :
    SAF.normalize_team_id "NFL_NFL_KC" "NFL" = "NFL_KC" ∧
    SAF.normalize_team_id (SAF.normalize_team_id "NFL_NFL_KC" "NFL") "NFL" = "KC" ∧
    SAF.normalize_team_id (SAF.normalize_team_id "NFL_NFL_KC" "NFL") "NFL" ≠
      SAF.normalize_team_id "NFL_NFL_KC" "NFL" := by
  refine ⟨by decide, by decide, by decide⟩

open SAF

/-- C8: for any single game with the same `K` for both sides, the home
rating change `K * (actual_home - expected_home)` is exactly the negation
of the away rating change `K * (actual_away - expected_away)`, where
`expected_away = 1 - expected_home`. -/
theorem elo_update_zero_sum (k rHome rAway : ℝ) (hs sa : Int) :
    eloHomeChange k rHome rAway hs sa = - eloAwayChange k rHome rAway hs sa := by
  unfold eloHomeChange eloAwayChange eloActualHome eloActualAway
  by_cases h1 : hs > sa
  · rw [if_pos h1, if_pos h1]; ring
  · by_cases h2 : hs < sa
    · rw [if_neg h1, if_pos h2, if_neg h1, if_pos h2]; ring
    · rw [if_neg h1, if_neg h2, if_neg h1, if_neg h2]; ring

/-- C4 (amended): `compute_elo_ratings` replays the completed games of one
league+season in non-decreasing `(week, date)` order — week is the primary
sort key and date the secondary — and the iterated list is a permutation of
the completed-game table, so every completed game is visited exactly once. -/
theorem elo_processing_order (db : DB) (league : String) (season : Int) :
    List.Sorted weekDateLe (eloOrderedGames db league season) ∧
    (eloOrderedGames db league season).Perm
      (db.games.filter (eloGamePred league season)) :=
  ⟨List.sorted_insertionSort weekDateLe _, List.perm_insertionSort weekDateLe _⟩

/-- C4 counterexample: with a week-2 game dated day 5 and a week-1 game
dated day 6, the replay processes the week-1 game first although it is
dated later, so the processed sequence is not non-decreasing in
`(date, week)`. -/
theorem elo_processing_order_counterexample :
    eloOrderedGames dbC4 "NFL" 2024 = [gC4b, gC4a] ∧
    gC4a.date < gC4b.date ∧
    ¬ dateWeekOrdered (eloOrderedGames dbC4 "NFL" 2024) :=
  ⟨by decide, by decide, by unfold dateWeekOrdered; decide⟩

/-- C6: `_get_rolling_point_diff` returns the arithmetic mean of the
non-null point differentials of at most the 8 most recent qualifying stat
rows (week at or before the cutoff, matching team/season/league), and
returns `none` — never a number — when no qualifying data exists; the
window is drawn from the qualifying rows sorted by week descending. -/
theorem rolling_point_diff_spec (db : DB) (league team : String)
    (season week : Int) :
    get_rolling_point_diff db league team season week 8
      = (if ((rollingSortedStats db league team season week).take 8).filterMap
            (fun s => s.point_differential) = [] then none
         else some (((((rollingSortedStats db league team season week).take 8).filterMap
            (fun s => s.point_differential)).sum)
          / (((((rollingSortedStats db league team season week).take 8).filterMap
            (fun s => s.point_differential)).length : ℝ)))) ∧
    ((rollingSortedStats db league team season week).take 8).length ≤ 8 ∧
    ((rollingSortedStats db league team season week).take 8).all
        (statPred league team season week) = true ∧
    List.Sorted statWeekGe (rollingSortedStats db league team season week) ∧
    (rollingSortedStats db league team season week).Perm
        (db.team_stats.filter (statPred league team season week)) := by
  refine ⟨?_, ?_, ?_, ?_, ?_⟩
  · by_cases hs : (rollingSortedStats db league team season week).take 8 = []
    · simp [get_rolling_point_diff, hs]
    · by_cases hd : ((rollingSortedStats db league team season week).take 8).filterMap
          (fun s => s.point_differential) = []
      · simp [get_rolling_point_diff, hs, hd]
      · simp [get_rolling_point_diff, hs, hd]
  · exact List.length_take_le 8 (rollingSortedStats db league team season week)
  · rw [List.all_eq_true]
    intro s hsmem
    have h1 : s ∈ rollingSortedStats db league team season week :=
      List.mem_of_mem_take hsmem
    have h2 : s ∈ db.team_stats.filter (statPred league team season week) :=
      (List.perm_insertionSort statWeekGe _).mem_iff.mp h1
    exact (List.mem_filter.mp h2).2
  · exact List.sorted_insertionSort statWeekGe _
  · exact List.perm_insertionSort statWeekGe _

theorem alistFind_foldl_set {β α : Type} (val : String → α) (ps : List (String × β)) :
    ∀ (init : List (String × α)) (t : String),
    alistFind (ps.foldl (fun acc p => alistSet acc p.1 (val p.1)) init) t
      = if t ∈ ps.map (fun p => p.1) then some (val t) else alistFind init t := by
  induction ps with
  | nil => intro init t; simp
  | cons p rest ih =>
    intro init t
    rw [List.foldl_cons, ih]
    by_cases hm : t ∈ rest.map (fun p => p.1)
    · simp [hm]
    · by_cases ht : t = p.1
      · simp [hm, ht, alistFind_set_self]
      · simp [hm, ht, alistFind_set_ne _ _ _ _ ht]

theorem prevRatingsBuild_ok (league : String) (rows : List TeamRating) :
    ∀ acc, (∀ r ∈ rows, normalize_team_id r.team_id league = "") →
    prevRatingsBuild league rows acc = .ok acc := by
  induction rows with
  | nil => intro acc _; rfl
  | cons r rest ih =>
    intro acc h
    have hr := h r (List.mem_cons_self r rest)
    simp only [prevRatingsBuild, if_pos hr]
    exact ih acc (fun s hs => h s (List.mem_cons_of_mem r hs))

theorem prevRatingsBuild_error (league : String) (rows : List TeamRating) :
    ∀ acc, (∃ r ∈ rows, normalize_team_id r.team_id league ≠ "") →
    prevRatingsBuild league rows acc = .error attrErrRating := by
  induction rows with
  | nil =>
    intro acc h
    obtain ⟨r, hr, _⟩ := h
    cases hr
  | cons r rest ih =>
    intro acc h
    by_cases hr : normalize_team_id r.team_id league = ""
    · simp only [prevRatingsBuild, if_pos hr]
      apply ih
      obtain ⟨s, hs, hsne⟩ := h
      rcases List.mem_cons.mp hs with rfl | hsr
      · exact absurd hr hsne
      · exact ⟨s, hsr, hsne⟩
    · simp only [prevRatingsBuild, if_neg hr]

/-- C7 (amended): for a replay of a season greater than 2000, building the
previous-season carry-over raises `AttributeError` as soon as any
previous-season rating row with a normalizable id exists (`ratings.py:137`
reads `r.rating`, an attribute the ORM model lacks), and the whole
computation fails — so the mean-reverted season start never occurs; when
no such row exists, and for seasons at or before 2000, every team of the
league's team table starts at `base_rating`.  The mean-reversion
expression of `ratings.py:146` evaluates a prior rating of 1800 with the
defaults to `1800 * (1 - 0.33) + 1500 * 0.33 = 1701.0`, not 1719.0. -/
theorem elo_init_mean_reversion (db : DB) (league : String) (season : Int)
    (k base f : ℝ) (t : String) :
    (2000 < season →
      (∃ r ∈ prevRows db league season,
        normalize_team_id r.team_id league ≠ "") →
      eloInitState db league season base f = .error attrErrRating) ∧
    (2000 < season →
      (∃ r ∈ prevRows db league season,
        normalize_team_id r.team_id league ≠ "") →
      eloOrderedGames db league season ≠ [] →
      compute_elo_ratings db league season k base f
        = .error attrErrRating) ∧
    (2000 < season →
      (∀ r ∈ prevRows db league season,
        normalize_team_id r.team_id league = "") →
      t ∈ alistKeys (teamInfoList db league) →
      ∃ init, eloInitState db league season base f = .ok init ∧
        alistFind init.ratings t = some base) ∧
    (¬ 2000 < season → t ∈ alistKeys (teamInfoList db league) →
      ∃ init, eloInitState db league season base f = .ok init ∧
        alistFind init.ratings t = some base) ∧
    eloStartRating [("KC", 1800)] 1500 0.33 "KC"
      = 1800 * (1 - 0.33) + 1500 * 0.33 ∧
    (1800 : ℝ) * (1 - 0.33) + 1500 * 0.33 = 1701 := by
  refine ⟨?_, ?_, ?_, ?_, rfl, by norm_num⟩
  · intro hs hex
    have hp : prevRatingsList db league season = .error attrErrRating :=
      prevRatingsBuild_error league (prevRows db league season) [] hex
    simp only [eloInitState, if_pos hs, hp]
  · intro hs hex hne
    have hp : prevRatingsList db league season = .error attrErrRating :=
      prevRatingsBuild_error league (prevRows db league season) [] hex
    simp only [compute_elo_ratings, if_neg hne, eloInitState, if_pos hs, hp]
  · intro hs hall ht
    have ht' : t ∈ (teamInfoList db league).map (fun p => p.1) := ht
    have hp : prevRatingsList db league season = .ok [] :=
      prevRatingsBuild_ok league (prevRows db league season) [] hall
    simp only [eloInitState, if_pos hs, hp]
    refine ⟨_, rfl, ?_⟩
    rw [alistFind_foldl_set (eloStartRating [] base f), if_pos ht']
    rfl
  · intro hs ht
    have ht' : t ∈ (teamInfoList db league).map (fun p => p.1) := ht
    simp only [eloInitState, if_neg hs]
    refine ⟨_, rfl, ?_⟩
    rw [alistFind_foldl_set (fun _ => base), if_pos ht']

/-- C7 witness: `dbC7` holds a completed 2023 game and a 2022 rating row
for KC, so the 2023 replay reaches initialization, reads the nonexistent
`rating` attribute and fails with `AttributeError`. -/
theorem elo_init_mean_reversion_witness :
    (2000 : Int) < 2023 ∧
    prevRowC7 ∈ prevRows dbC7 "NFL" 2023 ∧
    normalize_team_id prevRowC7.team_id "NFL" ≠ "" ∧
    eloOrderedGames dbC7 "NFL" 2023 ≠ [] ∧
    compute_elo_ratings dbC7 "NFL" 2023 20 1500 0.33
      = .error attrErrRating :=
  have hmem : prevRowC7 ∈ prevRows dbC7 "NFL" 2023 :=
    List.mem_filter.mpr ⟨List.mem_cons_self _ _, by decide⟩
  ⟨by decide, hmem, by decide, by decide,
    (elo_init_mean_reversion dbC7 "NFL" 2023 20 1500 0.33 "KC").2.1
      (by decide) ⟨prevRowC7, hmem, by decide⟩ (by decide)⟩

/-- C7 counterexample: (a) on `dbC7` (2023 season, 2022 rating row at Elo
1800 present, games present) `compute_elo_ratings` raises `AttributeError`
instead of starting KC at any mean-reverted value; (b) for a season-2000
replay the carry-over is skipped by the `season > 2000` gate: the 1999 row
is present yet KC starts at the base rating 1500; (c) the mean-reversion
expression itself gives 1701, not 1719, for a prior rating of 1800. -/
theorem elo_init_mean_reversion_counterexample :
    compute_elo_ratings dbC7 "NFL" 2023 20 1500 0.33
      = .error attrErrRating ∧
    eloInitState dbC7 "NFL" 2023 1500 0.33 = .error attrErrRating ∧
    prevRowC7x ∈ dbC7x.team_ratings ∧
    prevRowC7x.season = 1999 ∧
    eloInitState dbC7x "NFL" 2000 1500 0.33 = .ok initC7x ∧
    alistFind initC7x.ratings "KC" = some 1500 ∧
    eloStartRating [("KC", 1800)] 1500 0.33 "KC"
      = 1800 * (1 - 0.33) + 1500 * 0.33 ∧
    (1800 : ℝ) * (1 - 0.33) + 1500 * 0.33 ≠ 1719 :=
  ⟨rfl, rfl, List.mem_cons_self _ _, rfl, rfl, rfl, rfl, by norm_num⟩

/-- C3 (amended): in week-cutoff mode, when the rating lookups for the home
team and the away team both return unknown, the produced `rating_diff` is
0; a single unknown side is coerced to 0 individually, so one known side
yields its signed rating, not 0. -/
theorem rating_diff_unknown_both (db : DB) (league rating_type : String)
    (game : Game) (pw : Int)
    (hh : get_team_rating db game.home_team_id game.season pw league
      rating_type = none)
    (ha : get_team_rating db game.away_team_id game.season pw league
      rating_type = none) :
    (compute_game_features db league rating_type game (some pw)).rating_diff
      = 0 := by
  simp only [compute_game_features, hh, ha, Option.getD_none]
  norm_num

/-- C3 witness: with an empty lookup for both H and Z, the feature vector
for their game has `rating_diff = 0`. -/
theorem rating_diff_unknown_both_witness :
    get_team_rating dbC3 "H" 2024 3 "NFL" "elo" = none ∧
    get_team_rating dbC3 "Z" 2024 3 "NFL" "elo" = none ∧
    (compute_game_features dbC3 "NFL" "elo" gC3w (some 3)).rating_diff = 0 :=
  ⟨rfl, rfl, rating_diff_unknown_both dbC3 "NFL" "elo" gC3w 3 rfl rfl⟩

/-- C3 counterexample: home team H has no rating row (lookup unknown) while
away team A resolves to Elo 100, and the produced `rating_diff` is
`0 - 100 = -100`, not 0 — refuting the claim that a single unknown side
forces `rating_diff = 0`. -/
theorem rating_diff_unknown_one_counterexample :
    get_team_rating dbC3 "H" 2024 3 "NFL" "elo" = none ∧
    get_team_rating dbC3 "A" 2024 3 "NFL" "elo" = some 100 ∧
    (compute_game_features dbC3 "NFL" "elo" gC3 (some 3)).rating_diff ≠ 0 := by
  refine ⟨rfl, rfl, ?_⟩
  have h : (compute_game_features dbC3 "NFL" "elo" gC3 (some 3)).rating_diff
      = 0 - 100 := rfl
  rw [h]
  norm_num

/-- C9: `compute_game_features_by_id` fails (with the `Game not found`
error) exactly when no game row matches the identifier; when the game
exists but has no qualifying prior history it succeeds with defaulted
features — both teams at the base rating, hence `rating_diff = 0`. -/
theorem by_id_not_found_semantics (db : DB) (gid : String) :
    (compute_game_features_by_id db gid
        = .error ("Game not found: " ++ gid) ↔ find_game db gid = none) ∧
    (∀ G, find_game db gid = some G → priorGames db G = [] →
      compute_game_features_by_id db gid
        = .ok ⟨0, 1.0, (G.season : ℝ), (G.week : ℝ)⟩) := by
  constructor
  · cases h : find_game db gid with
    | none => simp [compute_game_features_by_id, h]
    | some G => simp [compute_game_features_by_id, h]
  · intro G hG hP
    simp only [compute_game_features_by_id, hG]
    rw [hP]
    simp [alistFind, sub_self]

/-- C9 witness: the only game row is found under its id, has an empty prior
history, and yields the defaulted feature vector with `rating_diff = 0`. -/
theorem by_id_not_found_semantics_witness :
    find_game dbC9 "C9G" = some gC9 ∧
    priorGames dbC9 gC9 = [] ∧
    compute_game_features_by_id dbC9 "C9G"
      = .ok ⟨0, 1.0, ((2024 : Int) : ℝ), ((3 : Int) : ℝ)⟩ :=
  ⟨by decide, by decide,
    (by_id_not_found_semantics dbC9 "C9G").2 gC9 (by decide) (by decide)⟩

/-- C2: for a game with both scores present and two distinct normalizable
teams, the replay step reads the post-initialization ratings `R_home`,
`R_away`, computes `E_home = 1/(1 + 10^((R_away - (R_home + 55))/400))`
and `E_away = 1 - E_home`, assigns actual scores 1/0 to winner/loser and
0.5/0.5 on equal scores, adds `K*(A - E)` to each rating, and increments
both games-processed counters by exactly 1. -/
theorem elo_step_per_game (k base : ℝ) (league : String) (s s2 : EloState)
    (g : Game) (home away : String) (hs sa : Int)
    (hhome : home = normalize_team_id g.home_team_id league)
    (haway : away = normalize_team_id g.away_team_id league)
    (hstate : s2 = eloInitTeam base (eloInitTeam base s home) away)
    (hscoreH : g.home_score = some hs) (hscoreA : g.away_score = some sa)
    (hh : home ≠ "") (ha : away ≠ "") (hne : home ≠ away) :
    ratingOf base (eloStep k base league s g) home
      = ratingOf base s2 home + k * (eloActualHome hs sa
          - eloExpectedHome (ratingOf base s2 home) (ratingOf base s2 away)) ∧
    ratingOf base (eloStep k base league s g) away
      = ratingOf base s2 away + k * (eloActualAway hs sa
          - (1.0 - eloExpectedHome (ratingOf base s2 home)
              (ratingOf base s2 away))) ∧
    countOf (eloStep k base league s g) home = countOf s2 home + 1 ∧
    countOf (eloStep k base league s g) away = countOf s2 away + 1 ∧
    eloExpectedHome (ratingOf base s2 home) (ratingOf base s2 away)
      = 1.0 / (1.0 + (10.0 : ℝ) ^ ((ratingOf base s2 away
          - (ratingOf base s2 home + 55.0)) / 400.0)) ∧
    (sa < hs → eloActualHome hs sa = 1.0 ∧ eloActualAway hs sa = 0.0) ∧
    (hs < sa → eloActualHome hs sa = 0.0 ∧ eloActualAway hs sa = 1.0) ∧
    (hs = sa → eloActualHome hs sa = 0.5 ∧ eloActualAway hs sa = 0.5) := by
  subst hhome haway hstate
  have hcond : ¬(normalize_team_id g.home_team_id league = "" ∨
      normalize_team_id g.away_team_id league = "") := not_or.mpr ⟨hh, ha⟩
  refine ⟨?_, ?_, ?_, ?_, rfl, ?_, ?_, ?_⟩
  · simp only [eloStep, if_neg hcond, ratingOf, countOf]
    rw [alistFind_set_ne _ _ _ _ hne, alistFind_set_self, Option.getD_some,
      hscoreH, hscoreA]
    simp only [Option.getD_some, eloHomeChange]
  · simp only [eloStep, if_neg hcond, ratingOf, countOf]
    rw [alistFind_set_self, Option.getD_some,
      alistFind_set_ne _ _ _ _ (Ne.symm hne), hscoreH, hscoreA]
    simp only [Option.getD_some, eloAwayChange]
  · simp only [eloStep, if_neg hcond, countOf]
    rw [alistFind_set_ne _ _ _ _ hne, alistFind_set_self, Option.getD_some]
  · simp only [eloStep, if_neg hcond, countOf]
    rw [alistFind_set_self, Option.getD_some,
      alistFind_set_ne _ _ _ _ (Ne.symm hne)]
  · intro hwin
    have h1 : hs > sa := hwin
    simp [eloActualHome, eloActualAway, h1]
  · intro hloss
    have h1 : ¬ hs > sa := by omega
    simp [eloActualHome, eloActualAway, h1, hloss]
  · intro htie
    have h1 : ¬ hs > sa := by omega
    have h2 : ¬ hs < sa := by omega
    simp [eloActualHome, eloActualAway, h1, h2]

/-- C2 witness: a concrete 24–17 game between KC and BUF from the empty
state bumps KC's games counter by one and scores the outcome 1/0. -/
theorem elo_step_per_game_witness :
    normalize_team_id "KC" "NFL" ≠ "" ∧
    ("KC" : String) ≠ "BUF" ∧
    countOf (eloStep 20 1500 "NFL" ⟨[], []⟩ gC2) "KC" = countOf s2C2 "KC" + 1 ∧
    eloActualHome 24 17 = 1.0 ∧ eloActualAway 24 17 = 0.0 :=
  have h := elo_step_per_game 20 1500 "NFL" ⟨[], []⟩ s2C2 gC2 "KC" "BUF" 24 17
    (by decide) (by decide) rfl rfl rfl (by decide) (by decide) (by decide)
  ⟨by decide, by decide, h.2.2.1,
    (h.2.2.2.2.2.1 (by decide)).1, (h.2.2.2.2.2.1 (by decide)).2⟩

theorem filter_decompose {α : Type} (p q r : α → Bool)
    (h : ∀ a, p a = (q a && r a)) (l : List α) :
    l.filter p = (l.filter q).filter r := by
  induction l with
  | nil => rfl
  | cons a l ih =>
    by_cases hq : q a = true
    · by_cases hr : r a = true
      · have hp : p a = true := by rw [h a, hq, hr]; rfl
        simp [List.filter_cons, hp, hq, hr, ih]
      · have hr' : r a = false := Bool.not_eq_true _ ▸ hr
        have hp : p a = false := by rw [h a, hq, hr']; rfl
        simp [List.filter_cons, hp, hq, hr', ih]
    · have hq' : q a = false := Bool.not_eq_true _ ▸ hq
      have hp : p a = false := by rw [h a, hq']; rfl
      simp [List.filter_cons, hp, hq', ih]

theorem priorGamePred_decompose (G g : Game) :
    priorGamePred G.league G.season G.date g
      = (completedBefore G.date g &&
          decide (g.league = G.league ∧ g.season = G.season ∧
            g.home_score.isSome ∧ g.away_score.isSome)) := by
  unfold priorGamePred completedBefore
  by_cases h1 : g.completed = true <;> by_cases h2 : g.date < G.date <;>
    by_cases h3 : g.league = G.league <;> by_cases h4 : g.season = G.season <;>
    simp [h1, h2, h3, h4]

/-- C1: the date-cutoff feature vector of a stored game depends only on the
completed games dated strictly before the game's date (and on the game row
itself): two game tables that agree on those games — in particular tables
that differ only in games dated at or after the target's date — yield
identical outputs from `compute_game_features_by_id`. -/
theorem by_id_leakage_safe (db1 db2 : DB) (gid : String) (G : Game)
    (h1 : find_game db1 gid = some G) (h2 : find_game db2 gid = some G)
    (hagree : db1.games.filter (completedBefore G.date)
      = db2.games.filter (completedBefore G.date)) :
    compute_game_features_by_id db1 gid
      = compute_game_features_by_id db2 gid := by
  have hprior : priorGames db1 G = priorGames db2 G := by
    unfold priorGames
    rw [filter_decompose _ _ _ (fun g => priorGamePred_decompose G g) db1.games,
      filter_decompose _ _ _ (fun g => priorGamePred_decompose G g) db2.games,
      hagree]
  unfold compute_game_features_by_id
  rw [h1, h2]
  dsimp only
  rw [hprior]

/-- C1 witness: adding a completed game dated after the target game (day 40
versus day 30) leaves the date-cutoff features of the target unchanged. -/
theorem by_id_leakage_safe_witness :
    find_game dbC1a "T1" = some gTargetC1 ∧
    find_game dbC1b "T1" = some gTargetC1 ∧
    dbC1a.games.filter (completedBefore gTargetC1.date)
      = dbC1b.games.filter (completedBefore gTargetC1.date) ∧
    compute_game_features_by_id dbC1a "T1"
      = compute_game_features_by_id dbC1b "T1" :=
  ⟨by decide, by decide, by decide,
    by_id_leakage_safe dbC1a dbC1b "T1" gTargetC1
      (by decide) (by decide) (by decide)⟩

theorem foldl_preserves {σ α : Type} (f : σ → α → σ) (P : σ → Prop)
    (l : List α) (hstep : ∀ s a, P s → P (f s a)) :
    ∀ s, P s → P (l.foldl f s) := by
  induction l with
  | nil => intro s h; exact h
  | cons a l ih => intro s h; exact ih (f s a) (hstep s a h)

theorem alistKeys_foldl_set {β α : Type} (val : String → α)
    (ps : List (String × β)) :
    ∀ (init : List (String × α)),
    alistKeys (ps.foldl (fun acc p => alistSet acc p.1 (val p.1)) init)
      = (ps.map (fun p => p.1)).foldl
          (fun ks k => if k ∈ ks then ks else ks ++ [k]) (alistKeys init) := by
  induction ps with
  | nil => intro init; rfl
  | cons p rest ih =>
    intro init
    rw [List.foldl_cons, ih, List.map_cons, List.foldl_cons]
    congr 1
    by_cases hm : p.1 ∈ alistKeys init
    · rw [alistKeys_set_of_mem _ _ _ hm, if_pos hm]
    · rw [alistKeys_set_of_not_mem _ _ _ hm, if_neg hm]

theorem keysFoldl_nodup (ks : List String) :
    ∀ init : List String, init.Nodup →
    (ks.foldl (fun acc k => if k ∈ acc then acc else acc ++ [k]) init).Nodup := by
  induction ks with
  | nil => intro init h; exact h
  | cons k ks ih =>
    intro init h
    rw [List.foldl_cons]
    by_cases hm : k ∈ init
    · rw [if_pos hm]; exact ih init h
    · rw [if_neg hm]
      refine ih _ ?_
      simp [List.nodup_append, h, hm]

theorem mem_keysFoldl (ks : List String) :
    ∀ (init : List String) (t : String),
    t ∈ ks.foldl (fun acc k => if k ∈ acc then acc else acc ++ [k]) init ↔
      t ∈ init ∨ t ∈ ks := by
  induction ks with
  | nil => intro init t; simp
  | cons k ks ih =>
    intro init t
    rw [List.foldl_cons]
    by_cases hm : k ∈ init
    · rw [if_pos hm, ih]
      simp only [List.mem_cons]
      constructor
      · rintro (h | h)
        · exact Or.inl h
        · exact Or.inr (Or.inr h)
      · rintro (h | rfl | h)
        · exact Or.inl h
        · exact Or.inl hm
        · exact Or.inr h
    · rw [if_neg hm, ih]
      simp only [List.mem_append, List.mem_singleton, List.mem_cons]
      tauto

theorem eloInitTeam_ratings_keys (base : ℝ) (s : EloState) (t : String) :
    alistKeys (eloInitTeam base s t).ratings
      = if t ∈ alistKeys s.ratings then alistKeys s.ratings
        else alistKeys s.ratings ++ [t] := by
  unfold eloInitTeam
  by_cases hm : (alistFind s.ratings t).isSome = true
  · rw [if_pos hm, if_pos ((alistFind_isSome_iff_mem _ _).mp hm)]
  · have hm' : t ∉ alistKeys s.ratings := fun c =>
      hm ((alistFind_isSome_iff_mem _ _).mpr c)
    rw [if_neg hm, if_neg hm']
    exact alistKeys_set_of_not_mem _ _ _ hm'

theorem eloInitTeam_counts_keys (base : ℝ) (s : EloState) (t : String)
    (hkeys : alistKeys s.ratings = alistKeys s.counts) :
    alistKeys (eloInitTeam base s t).counts
      = if t ∈ alistKeys s.ratings then alistKeys s.counts
        else alistKeys s.counts ++ [t] := by
  unfold eloInitTeam
  by_cases hm : (alistFind s.ratings t).isSome = true
  · rw [if_pos hm, if_pos ((alistFind_isSome_iff_mem _ _).mp hm)]
  · have hm' : t ∉ alistKeys s.ratings := fun c =>
      hm ((alistFind_isSome_iff_mem _ _).mpr c)
    have hm'' : t ∉ alistKeys s.counts := hkeys ▸ hm'
    rw [if_neg hm, if_neg hm']
    exact alistKeys_set_of_not_mem _ _ _ hm''

theorem eloInitTeam_preserves_keysEq (base : ℝ) (s : EloState) (t : String)
    (h : alistKeys s.ratings = alistKeys s.counts) :
    alistKeys (eloInitTeam base s t).ratings
      = alistKeys (eloInitTeam base s t).counts := by
  rw [eloInitTeam_ratings_keys, eloInitTeam_counts_keys base s t h]
  by_cases hm : t ∈ alistKeys s.ratings
  · rw [if_pos hm, if_pos hm]; exact h
  · rw [if_neg hm, if_neg hm, h]

theorem eloInitTeam_preserves_nodup (base : ℝ) (s : EloState) (t : String)
    (h : (alistKeys s.ratings).Nodup) :
    (alistKeys (eloInitTeam base s t).ratings).Nodup := by
  rw [eloInitTeam_ratings_keys]
  by_cases hm : t ∈ alistKeys s.ratings
  · rw [if_pos hm]; exact h
  · rw [if_neg hm]; simp [List.nodup_append, h, hm]

theorem mem_keys_eloInitTeam (base : ℝ) (s : EloState) (t0 t : String) :
    t ∈ alistKeys (eloInitTeam base s t0).ratings ↔
      t = t0 ∨ t ∈ alistKeys s.ratings := by
  rw [eloInitTeam_ratings_keys]
  by_cases hm : t0 ∈ alistKeys s.ratings
  · rw [if_pos hm]
    constructor
    · exact Or.inr
    · rintro (rfl | h)
      · exact hm
      · exact h
  · rw [if_neg hm]
    simp only [List.mem_append, List.mem_singleton]
    tauto

theorem alistKeys_set_set_of_mem {β : Type} (l : List (String × β))
    (k1 k2 : String) (v1 v2 : β)
    (h1 : k1 ∈ alistKeys l) (h2 : k2 ∈ alistKeys l) :
    alistKeys (alistSet (alistSet l k1 v1) k2 v2) = alistKeys l := by
  have h2' : k2 ∈ alistKeys (alistSet l k1 v1) := by
    rw [alistKeys_set_of_mem l k1 v1 h1]; exact h2
  rw [alistKeys_set_of_mem _ k2 v2 h2', alistKeys_set_of_mem l k1 v1 h1]

theorem eloStep_keys_not_skip (k base : ℝ) (league : String) (s : EloState)
    (g : Game)
    (hh : normalize_team_id g.home_team_id league ≠ "")
    (ha : normalize_team_id g.away_team_id league ≠ "")
    (hkeys : alistKeys s.ratings = alistKeys s.counts) :
    alistKeys (eloStep k base league s g).ratings
      = alistKeys (eloInitTeam base (eloInitTeam base s
          (normalize_team_id g.home_team_id league))
          (normalize_team_id g.away_team_id league)).ratings ∧
    alistKeys (eloStep k base league s g).counts
      = alistKeys (eloInitTeam base (eloInitTeam base s
          (normalize_team_id g.home_team_id league))
          (normalize_team_id g.away_team_id league)).counts := by
  have hcond : ¬(normalize_team_id g.home_team_id league = "" ∨
      normalize_team_id g.away_team_id league = "") := not_or.mpr ⟨hh, ha⟩
  have hhome_mem : normalize_team_id g.home_team_id league ∈
      alistKeys (eloInitTeam base (eloInitTeam base s
        (normalize_team_id g.home_team_id league))
        (normalize_team_id g.away_team_id league)).ratings :=
    (mem_keys_eloInitTeam base _ _ _).mpr
      (Or.inr ((mem_keys_eloInitTeam base s _ _).mpr (Or.inl rfl)))
  have haway_mem : normalize_team_id g.away_team_id league ∈
      alistKeys (eloInitTeam base (eloInitTeam base s
        (normalize_team_id g.home_team_id league))
        (normalize_team_id g.away_team_id league)).ratings :=
    (mem_keys_eloInitTeam base _ _ _).mpr (Or.inl rfl)
  have hXkeys : alistKeys (eloInitTeam base (eloInitTeam base s
        (normalize_team_id g.home_team_id league))
        (normalize_team_id g.away_team_id league)).ratings
      = alistKeys (eloInitTeam base (eloInitTeam base s
        (normalize_team_id g.home_team_id league))
        (normalize_team_id g.away_team_id league)).counts :=
    eloInitTeam_preserves_keysEq base _ _
      (eloInitTeam_preserves_keysEq base s _ hkeys)
  constructor
  · simp only [eloStep, if_neg hcond]
    exact alistKeys_set_set_of_mem _ _ _ _ _ hhome_mem haway_mem
  · simp only [eloStep, if_neg hcond]
    exact alistKeys_set_set_of_mem _ _ _ _ _ (hXkeys ▸ hhome_mem)
      (hXkeys ▸ haway_mem)

theorem eloStep_preserves_inv (k base : ℝ) (league : String) (s : EloState)
    (g : Game)
    (h : alistKeys s.ratings = alistKeys s.counts ∧
      (alistKeys s.ratings).Nodup) :
    alistKeys (eloStep k base league s g).ratings
        = alistKeys (eloStep k base league s g).counts ∧
    (alistKeys (eloStep k base league s g).ratings).Nodup := by
  by_cases hcond : normalize_team_id g.home_team_id league = "" ∨
      normalize_team_id g.away_team_id league = ""
  · simp only [eloStep, if_pos hcond]; exact h
  · push_neg at hcond
    obtain ⟨hstep_r, hstep_c⟩ :=
      eloStep_keys_not_skip k base league s g hcond.1 hcond.2 h.1
    have hXkeys := eloInitTeam_preserves_keysEq base
      (eloInitTeam base s (normalize_team_id g.home_team_id league))
      (normalize_team_id g.away_team_id league)
      (eloInitTeam_preserves_keysEq base s
        (normalize_team_id g.home_team_id league) h.1)
    have hXnodup := eloInitTeam_preserves_nodup base
      (eloInitTeam base s (normalize_team_id g.home_team_id league))
      (normalize_team_id g.away_team_id league)
      (eloInitTeam_preserves_nodup base s
        (normalize_team_id g.home_team_id league) h.2)
    exact ⟨hstep_r.trans (hXkeys.trans hstep_c.symm), hstep_r ▸ hXnodup⟩

theorem mem_keys_eloStep (k base : ℝ) (league : String) (s : EloState)
    (g : Game) (t : String) :
    t ∈ alistKeys (eloStep k base league s g).ratings ↔
      (t ∈ alistKeys s.ratings ∨
        (normalize_team_id g.home_team_id league ≠ "" ∧
         normalize_team_id g.away_team_id league ≠ "" ∧
         (t = normalize_team_id g.home_team_id league ∨
          t = normalize_team_id g.away_team_id league))) := by
  by_cases hcond : normalize_team_id g.home_team_id league = "" ∨
      normalize_team_id g.away_team_id league = ""
  · simp only [eloStep, if_pos hcond]
    constructor
    · exact Or.inl
    · rintro (h | ⟨hh, ha, _⟩)
      · exact h
      · rcases hcond with hc | hc
        · exact absurd hc hh
        · exact absurd hc ha
  · push_neg at hcond
    simp only [eloStep, if_neg (not_or.mpr hcond)]
    rw [mem_alistKeys_set, mem_alistKeys_set, mem_keys_eloInitTeam,
      mem_keys_eloInitTeam]
    have hh := hcond.1
    have ha := hcond.2
    tauto

theorem mem_keys_foldl_eloStep (k base : ℝ) (league : String)
    (gs : List Game) :
    ∀ (s : EloState) (t : String),
    t ∈ alistKeys (gs.foldl (eloStep k base league) s).ratings ↔
      (t ∈ alistKeys s.ratings ∨ ∃ g ∈ gs,
        normalize_team_id g.home_team_id league ≠ "" ∧
        normalize_team_id g.away_team_id league ≠ "" ∧
        (t = normalize_team_id g.home_team_id league ∨
         t = normalize_team_id g.away_team_id league)) := by
  induction gs with
  | nil => intro s t; simp
  | cons g gs ih =>
    intro s t
    rw [List.foldl_cons, ih, mem_keys_eloStep, List.exists_mem_cons_iff]
    exact or_assoc


/-- C5 (amended): `compute_elo_ratings` returns the empty list when no
completed game exists; otherwise, after the replay, the snapshot
construction of `ratings.py:228-239` raises `TypeError` on the first entry
of the final ratings dictionary, because `database.py`'s `TeamRating`
constructor rejects the snapshot keyword arguments — the function never
returns a non-empty snapshot list, so no per-team snapshot coverage holds;
it returns the (empty) accumulated list only when the final dictionary has
no entries at all. -/
theorem elo_snapshot_construction_error (db : DB) (league : String)
    (season : Int) (k base f : ℝ) :
    (eloOrderedGames db league season = [] →
      compute_elo_ratings db league season k base f = .ok []) ∧
    (∀ init, eloOrderedGames db league season ≠ [] →
      eloInitState db league season base f = .ok init →
      ((eloOrderedGames db league season).foldl (eloStep k base league)
        init).ratings.isEmpty = false →
      compute_elo_ratings db league season k base f
        = .error typeErrSnapshot) ∧
    (∀ e, eloOrderedGames db league season ≠ [] →
      eloInitState db league season base f = .error e →
      compute_elo_ratings db league season k base f = .error e) ∧
    (∀ l, compute_elo_ratings db league season k base f = .ok l →
      l = []) := by
  refine ⟨?_, ?_, ?_, ?_⟩
  · intro h
    simp [compute_elo_ratings, h]
  · intro init hne hinit hratings
    simp only [compute_elo_ratings, if_neg hne, hinit]
    simp [hratings]
  · intro e hne hinit
    simp [compute_elo_ratings, if_neg hne, hinit]
  · intro l h
    by_cases hne : eloOrderedGames db league season = []
    · unfold compute_elo_ratings at h
      rw [if_pos hne] at h
      exact (Except.ok.inj h).symm
    · unfold compute_elo_ratings at h
      rw [if_neg hne] at h
      cases hinit : eloInitState db league season base f with
      | error e =>
        rw [hinit] at h
        simp at h
      | ok init =>
        rw [hinit] at h
        dsimp only at h
        by_cases hemp : ((eloOrderedGames db league season).foldl
            (eloStep k base league) init).ratings.isEmpty = true
        · rw [if_pos hemp] at h
          exact (Except.ok.inj h).symm
        · rw [if_neg hemp] at h
          simp at h

/-- C5 witness: on `dbC5` (one completed game, team table listing X) the
replay succeeds, its final ratings dictionary is non-empty, and the
snapshot construction fails with `TypeError`. -/
theorem elo_snapshot_construction_error_witness :
    eloOrderedGames dbC5 "NFL" 2024 ≠ [] ∧
    eloInitState dbC5 "NFL" 2024 1500 0.33 = .ok initC5 ∧
    ((eloOrderedGames dbC5 "NFL" 2024).foldl (eloStep 20 1500 "NFL")
      initC5).ratings.isEmpty = false ∧
    compute_elo_ratings dbC5 "NFL" 2024 20 1500 0.33
      = .error typeErrSnapshot :=
  ⟨by decide, rfl, rfl,
    (elo_snapshot_construction_error dbC5 "NFL" 2024 20 1500 0.33).2.1
      initC5 (by decide) rfl rfl⟩

/-- C5 counterexample: `dbC5` has a completed game whose observed teams
are A and B, yet `compute_elo_ratings` raises `TypeError` at the snapshot
construction instead of returning a snapshot list — no list with one
snapshot per observed team is ever produced. -/
theorem elo_snapshot_construction_error_counterexample :
    compute_elo_ratings dbC5 "NFL" 2024 20 1500 0.33
      = .error typeErrSnapshot ∧
    gC5 ∈ eloOrderedGames dbC5 "NFL" 2024 ∧
    gC5.home_team_id = "A" ∧ gC5.away_team_id = "B" ∧
    gC5.completed = true :=
  ⟨rfl, by decide, rfl, rfl, rfl⟩
